import Mathlib

/-! Verification development for the interview session/media engine:
shallow embedding of the signaling codec, session registry, ICE buffering,
push-to-talk capture, playback track, streaming recorder and multipart
upload client, with theorems settling the specification claims. -/

namespace SessionEngine

/-! ## Signaling protocol codec — `ai_bot/signaling/stomp.py`
Python strings are embedded as `List Char`; the JSON layer (`json.loads`
and `json.dumps`, which are external library collaborators) is abstracted
as an `Option`-valued parse function: Python raising `JSONDecodeError`
inside the `try` block corresponds to the `none` result. -/

/-- Embedding of Python `"\n".join(lines)`. -/
def joinLines : List (List Char) → List Char
  | [] => []
  | [l] => l
  | l :: rest => l ++ '\n' :: joinLines rest

/-- One header line of `frame`: Python `f"{k}:{v}"`. -/
def headerLine (kv : List Char × List Char) : List Char :=
  kv.1 ++ ':' :: kv.2

/-- Embedding of `stomp.frame(command, headers, body)`: command line, one
`key:value` line per header (in order), a blank line, the body, and a NUL
terminator. -/
def frame (command : List Char) (headers : List (List Char × List Char))
    (body : List Char) : List Char :=
  joinLines ([command] ++ headers.map headerLine ++ [[], body]) ++ ['\x00']

/-- The suffix of `msg` after the first occurrence of the blank-line
separator `"\n\n"`, or `none` when there is no such occurrence.  This is
Python `msg.split("\n\n", 1)[1]` guarded by `"\n\n" in msg`. -/
def afterSep : List Char → Option (List Char)
  | [] => none
  | a :: rest =>
    if a = '\n' then
      match rest with
      | [] => none
      | b :: rest2 => if b = '\n' then some rest2 else afterSep (b :: rest2)
    else afterSep rest

/-- Embedding of Python `s.rstrip("\x00")`: remove every trailing NUL. -/
def rstripNul (l : List Char) : List Char :=
  (l.reverse.dropWhile (fun c => c = '\x00')).reverse

/-- Embedding of `stomp.parse_body(msg)`, parameterised by the JSON
decoder `jparse` (Python `json.loads`, with `none` for a decode error,
which the source catches and turns into the `None` return). -/
def parse_body {J : Type} (jparse : List Char → Option J) (msg : List Char) :
    Option J :=
  match afterSep msg with
  | none => none
  | some post =>
    let body := rstripNul post
    if body = [] then none else jparse body

/-- A tiny concrete decoder used to instantiate the codec theorems on a
closed input: it accepts exactly the nonempty all-digit strings. -/
def natParse (l : List Char) : Option Nat :=
  if l ≠ [] ∧ l.all (fun c => c.isDigit) then
    some (l.foldl (fun acc c => acc * 10 + (c.toNat - 48)) 0)
  else none

/-- A tiny concrete serializer matching `natParse`. -/
def natDump (n : Nat) : List Char :=
  Nat.toDigits 10 n

/-! ### Codec lemmas -/

/-- Scanning past a non-newline head character. -/
theorem afterSep_cons_ne (a : Char) (l : List Char) (h : a ≠ '\n') :
    afterSep (a :: l) = afterSep l := by
  rw [afterSep.eq_def]
  simp [h]

/-- A prefix without newlines cannot take part in a separator match. -/
theorem afterSep_append_skip (s t : List Char) (h : '\n' ∉ s) :
    afterSep (s ++ t) = afterSep t := by
  induction s with
  | nil => rfl
  | cons a s2 ih =>
    have ha : a ≠ '\n' := fun hEq => h (hEq ▸ List.mem_cons_self a s2)
    have hs2 : '\n' ∉ s2 := fun hm => h (List.mem_cons_of_mem a hm)
    rw [List.cons_append, afterSep_cons_ne a _ ha, ih hs2]

/-- The separator at the head is found immediately. -/
theorem afterSep_double (t : List Char) : afterSep ('\n' :: '\n' :: t) = some t := by
  rw [afterSep.eq_def]
  simp

/-- A newline followed by a non-newline character does not start a
separator match, so the scan continues. -/
theorem afterSep_nl_cons (ch : Char) (w : List Char) (h : ch ≠ '\n') :
    afterSep ('\n' :: ch :: w) = afterSep (ch :: w) := by
  rw [afterSep.eq_def]
  simp [h]

theorem afterSep_frame_core (hls : List (List Char × List Char))
    (c b t : List Char) (hc : '\n' ∉ c)
    (hh : ∀ kv ∈ hls, '\n' ∉ kv.1 ∧ '\n' ∉ kv.2) :
    afterSep (joinLines ([c] ++ hls.map headerLine ++ [[], b]) ++ t) =
      some (b ++ t) := by
  induction hls generalizing c with
  | nil =>
    have : joinLines ([c] ++ [] ++ [[], b]) = c ++ '\n' :: '\n' :: b := by
      simp [joinLines]
    rw [List.map_nil, this, List.append_assoc]
    rw [afterSep_append_skip c _ hc]
    exact afterSep_double (b ++ t)
  | cons kv hls2 ih =>
    have hkv := hh kv (List.mem_cons_self kv hls2)
    have hkvline : '\n' ∉ headerLine kv := by
      intro hm
      unfold headerLine at hm
      rcases List.mem_append.mp hm with h1 | h2
      · exact hkv.1 h1
      · rcases List.mem_cons.mp h2 with h3 | h4
        · exact absurd h3 (by decide)
        · exact hkv.2 h4
    have hh2 : ∀ kv2 ∈ hls2, '\n' ∉ kv2.1 ∧ '\n' ∉ kv2.2 := by
      intro kv2 hm; exact hh kv2 (List.mem_cons_of_mem kv hm)
    have hjoin : joinLines ([c] ++ (kv :: hls2).map headerLine ++ [[], b]) =
        c ++ '\n' :: joinLines ([headerLine kv] ++ hls2.map headerLine ++ [[], b]) := by
      simp [joinLines]
    rw [hjoin, List.append_assoc]
    rw [afterSep_append_skip c _ hc]
    have hrest := ih (headerLine kv) hkvline hh2
    set X := joinLines ([headerLine kv] ++ hls2.map headerLine ++ [[], b]) with hX
    have hXhead : ∃ ch w, X ++ t = ch :: w ∧ ch ≠ '\n' := by
      have hXform : ∃ w0, X = headerLine kv ++ '\n' :: w0 := by
        cases hls2 with
        | nil => exact ⟨joinLines [[], b], by simp [hX, joinLines]⟩
        | cons kv2 hls3 =>
          exact ⟨joinLines (headerLine kv2 :: List.map headerLine hls3 ++ [[], b]),
            by simp [hX, joinLines]⟩
      rcases hXform with ⟨w0, hw0⟩
      rcases hk : kv.1 with _ | ⟨e, es⟩
      · refine ⟨':', kv.2 ++ '\n' :: w0 ++ t, ?_, by decide⟩
        rw [hw0]; simp [headerLine, hk]
      · refine ⟨e, (es ++ ':' :: kv.2) ++ '\n' :: w0 ++ t, ?_, ?_⟩
        · rw [hw0]; simp [headerLine, hk]
        · intro hEq
          exact hkv.1 (by rw [hk, hEq]; exact List.mem_cons_self _ _)
    rcases hXhead with ⟨ch, w, hcw, hch⟩
    rw [List.cons_append, hcw, afterSep_nl_cons ch w hch, ← hcw, hrest]

/-- A list with no NUL characters is unchanged when a single trailing NUL
is stripped. -/
theorem rstripNul_append_nul (b : List Char) (h : '\x00' ∉ b) :
    rstripNul (b ++ ['\x00']) = b := by
  unfold rstripNul
  have hdrop : List.dropWhile (fun c => c = '\x00') b.reverse = b.reverse := by
    cases hb : b.reverse with
    | nil => rfl
    | cons a l2 =>
      have ha : a ≠ '\x00' := by
        intro hEq
        apply h
        apply List.mem_reverse.mp
        rw [hb, hEq]
        exact List.mem_cons_self _ _
      rw [List.dropWhile_cons]
      simp [ha]
  rw [List.reverse_append, List.reverse_singleton, List.singleton_append,
    List.dropWhile_cons]
  simp [hdrop]

/-- Having a blank-line separator is exactly what `afterSep` detects. -/
theorem afterSep_none_iff (msg : List Char) :
    afterSep msg = none ↔ ¬ (['\n', '\n'] <:+: msg) := by
  induction msg with
  | nil =>
    simp [afterSep]
  | cons a rest ih =>
    by_cases ha : a = '\n'
    · subst ha
      cases rest with
      | nil =>
        rw [afterSep.eq_def]
        simp only [reduceIte]
        constructor
        · intro _ hinf
          have := hinf.length_le
          simp at this
        · intro _
          trivial
      | cons b rest2 =>
        by_cases hb : b = '\n'
        · subst hb
          rw [afterSep_double]
          constructor
          · intro hcontra; exact absurd hcontra (by simp)
          · intro hcontra
            exact absurd (List.prefix_iff_eq_take.mpr rfl).isInfix hcontra
        · rw [afterSep_nl_cons b rest2 hb]
          rw [ih]
          constructor
          · intro hni hinf
            rcases List.infix_cons_iff.mp hinf with hpre | hinf2
            · rcases List.cons_prefix_cons.mp hpre with ⟨_, hpre2⟩
              rcases List.cons_prefix_cons.mp hpre2 with ⟨hbad, _⟩
              exact hb hbad.symm
            · exact hni hinf2
          · intro hni hinf
            exact hni (List.infix_cons hinf)
    · rw [afterSep_cons_ne a rest ha, ih]
      constructor
      · intro hni hinf
        rcases List.infix_cons_iff.mp hinf with hpre | hinf2
        · rcases List.cons_prefix_cons.mp hpre with ⟨hbad, _⟩
          exact ha hbad.symm
        · exact hni hinf2
      · intro hni hinf
        exact hni (List.infix_cons hinf)

/-- When the blank line after `pre` is the FIRST separator occurrence,
`afterSep` returns exactly the part after it. -/
theorem afterSep_first_occurrence (pre post : List Char)
    (hfirst : ¬ (['\n', '\n'] <:+: (pre ++ ['\n']))) :
    afterSep (pre ++ '\n' :: '\n' :: post) = some post := by
  induction pre with
  | nil => exact afterSep_double post
  | cons c pre2 ih =>
    by_cases hc : c = '\n'
    · subst hc
      cases pre2 with
      | nil =>
        simp only [List.cons_append, List.nil_append] at hfirst
        exact absurd (List.infix_refl ['\n', '\n']) hfirst
      | cons d pre3 =>
        by_cases hd : d = '\n'
        · subst hd
          exact absurd (List.IsPrefix.isInfix ⟨pre3 ++ ['\n'], rfl⟩) hfirst
        · have hfirst2 : ¬ (['\n', '\n'] <:+: ((d :: pre3) ++ ['\n'])) := by
            intro hinf
            exact hfirst (List.infix_cons hinf)
          rw [List.cons_append, List.cons_append, afterSep_nl_cons d _ hd,
            ← List.cons_append]
          exact ih hfirst2
    · have hfirst2 : ¬ (['\n', '\n'] <:+: (pre2 ++ ['\n'])) := by
        intro hinf
        exact hfirst (List.infix_cons hinf)
      rw [List.cons_append, afterSep_cons_ne c _ hc]
      exact ih hfirst2

/-- C8 — `parse_body` on an arbitrary frame: with no blank-line separator
it returns nothing; with a separator it returns the decoder's result on
the extracted body (so a decode failure yields nothing), and an empty
extracted body yields nothing.  The embedding is a total function, which
is the shallow form of "never throws on malformed input". -/
theorem parse_body_decodes_or_rejects {J : Type}
    (jparse : List Char → Option J) (msg pre post : List Char) :
    (¬ (['\n', '\n'] <:+: msg) → parse_body jparse msg = none)
    ∧ (msg = pre ++ '\n' :: '\n' :: post →
        ¬ (['\n', '\n'] <:+: (pre ++ ['\n'])) →
        ((rstripNul post = [] → parse_body jparse msg = none)
          ∧ (rstripNul post ≠ [] →
              parse_body jparse msg = jparse (rstripNul post)))) := by
  constructor
  · intro hno
    unfold parse_body
    rw [(afterSep_none_iff msg).mpr hno]
  · intro hmsg hfirst
    have hsep : afterSep msg = some post := by
      rw [hmsg]
      exact afterSep_first_occurrence pre post hfirst
    constructor
    · intro hempty
      unfold parse_body
      rw [hsep]
      simp only
      rw [if_pos hempty]
    · intro hne
      unfold parse_body
      rw [hsep]
      simp only
      rw [if_neg hne]

/-- Witness for C8: a concrete well-formed frame decodes to its body. -/
theorem parse_body_decodes_or_rejects_witness :
    parse_body natParse (("SEND\ndest:x\n\n42\x00").toList) = some 42 := by
  have h := (parse_body_decodes_or_rejects natParse
    (("SEND\ndest:x\n\n42\x00").toList) (("SEND\ndest:x").toList)
    (("42\x00").toList)).2 (by decide) (by decide)
  have h2 := h.2 (by decide)
  rw [h2]
  decide

/-- C9 (amended) — codec round trip: for a command with no newline, headers
with newline-free keys and values, and a serialized value that is nonempty,
NUL-free and accepted by the decoder, decoding the body of the encoded
frame recovers the value. -/
theorem frame_parse_roundtrip {J : Type} (jparse : List Char → Option J)
    (jdump : J → List Char) (d : J) (c : List Char)
    (hs : List (List Char × List Char))
    (hc : '\n' ∉ c)
    (hh : ∀ kv ∈ hs, '\n' ∉ kv.1 ∧ '\n' ∉ kv.2)
    (hne : jdump d ≠ [])
    (hnul : '\x00' ∉ jdump d)
    (hrt : jparse (jdump d) = some d) :
    parse_body jparse (frame c hs (jdump d)) = some d := by
  unfold frame parse_body
  rw [afterSep_frame_core hs c (jdump d) (['\x00']) hc hh]
  simp only
  rw [rstripNul_append_nul (jdump d) hnul, if_neg hne]
  exact hrt

/-- Witness for the amended C9 on a concrete frame. -/
theorem frame_parse_roundtrip_witness :
    parse_body natParse
      (frame (("SEND").toList) [((("destination").toList), (("/app/x").toList))]
        (natDump 42)) = some 42 :=
  frame_parse_roundtrip natParse natDump 42 (("SEND").toList)
    [((("destination").toList), (("/app/x").toList))]
    (by decide) (by decide) (by decide) (by decide) (by decide)

/-- Counterexample to C9 as stated: with a command that itself contains a
blank line, the first separator falls inside the command, the extracted
body is garbage, and the round trip fails even though the serializer and
decoder do round-trip on their own. -/
theorem frame_roundtrip_fails_on_blank_line_command :
    natParse (natDump 7) = some 7
    ∧ parse_body natParse (frame (("A\n\nB").toList) [] (natDump 7)) = none := by
  constructor
  · decide
  · decide

/-! ## Session registry — `signaling/session.py`
`start(room_id)` takes the lock, refuses when the map already holds
`MAX_CONCURRENT_SESSIONS` sessions, releases the lock and spawns a session
thread.  The spawned thread inserts into the map only later, when the
`WEBRTC_OFFER` message arrives, under a separate lock acquisition and with
no re-check of the capacity.  The embedding records both steps as separate
atomic events on the registry state. -/

def MAX_CONCURRENT_SESSIONS : Nat := 10

/-- Registry state: the keys of the `_sessions` dict plus the set of rooms
whose session thread has been spawned by an accepted `start`. -/
structure RegState where
  sessions : List String
  spawned : List String
deriving DecidableEq

/-- Python dict insertion `_sessions[room_id] = session` on the key set:
an existing key is overwritten, a new key is appended. -/
def insertKey (r : String) (l : List String) : List String :=
  if r ∈ l then l else l ++ [r]

/-- Embedding of `session.start`: the capacity check under the lock.  On
success it only spawns the session thread; nothing is inserted yet. -/
def sessStart (st : RegState) (r : String) : RegState × Bool :=
  if MAX_CONCURRENT_SESSIONS ≤ st.sessions.length then (st, false)
  else ({ st with spawned := st.spawned ++ [r] }, true)

/-- Embedding of the `WEBRTC_OFFER` branch of `session._session`: the
spawned thread creates the `WebRTCSession` and stores it in `_sessions`
under the lock, without any capacity re-check. -/
def sessOffer (st : RegState) (r : String) : RegState :=
  if r ∈ st.spawned then { st with sessions := insertKey r st.sessions }
  else st

/-- Registry events: an admission attempt, or the offer arrival that makes
the spawned session insert itself. -/
inductive RegEvent where
  | start (r : String)
  | offer (r : String)
deriving DecidableEq

def regStep (st : RegState) (e : RegEvent) : RegState :=
  match e with
  | .start r => (sessStart st r).1
  | .offer r => sessOffer st r

def regRun (es : List RegEvent) : RegState :=
  es.foldl regStep ⟨[], []⟩

/-- Eleven rooms admitted before any offer arrives, then all eleven
offers: every `start` passes the capacity check against the still-empty
map. -/
def overloadTrace : List RegEvent :=
  [RegEvent.start ("r01"), RegEvent.start ("r02"), RegEvent.start ("r03"),
   RegEvent.start ("r04"), RegEvent.start ("r05"), RegEvent.start ("r06"),
   RegEvent.start ("r07"), RegEvent.start ("r08"), RegEvent.start ("r09"),
   RegEvent.start ("r10"), RegEvent.start ("r11"),
   RegEvent.offer ("r01"), RegEvent.offer ("r02"), RegEvent.offer ("r03"),
   RegEvent.offer ("r04"), RegEvent.offer ("r05"), RegEvent.offer ("r06"),
   RegEvent.offer ("r07"), RegEvent.offer ("r08"), RegEvent.offer ("r09"),
   RegEvent.offer ("r10"), RegEvent.offer ("r11")]

/-- C1 fails on the code: the capacity check and the map insertion are in
separate critical sections (the insertion happens only when the offer
arrives), so eleven admissions ahead of the offers drive the map to
eleven stored sessions, past `MAX_CONCURRENT_SESSIONS`. -/
theorem registry_overflow_on_deferred_insert :
    (regRun overloadTrace).sessions.length = 11
    ∧ MAX_CONCURRENT_SESSIONS < (regRun overloadTrace).sessions.length := by
  constructor
  · decide
  · decide

/-! ## ICE candidate buffering — `signaling/webrtc.py`
`handle_ice` appends to `_pending_remote_ice` while the remote description
is unset, else parses and applies immediately, dropping the candidate on a
parse or apply failure.  `handle_offer` sets the remote description, then
walks the pending list in order, applying each candidate in its own `try`
block, and finally clears the list.  Parse/apply success of a candidate is
abstracted by the predicate `ok`; the `events` field logs the peer calls. -/

inductive IceEvent (α : Type) where
  | setRemote
  | applied (c : α)
  | dropped (c : α)
deriving DecidableEq

structure IceState (α : Type) where
  remoteDescSet : Bool
  pending : List α
  events : List (IceEvent α)
deriving DecidableEq

def initIce {α : Type} : IceState α := ⟨false, [], []⟩

/-- Embedding of `WebRTCSession.handle_ice`. -/
def handleIce {α : Type} (ok : α → Bool) (s : IceState α) (c : α) :
    IceState α :=
  if s.remoteDescSet = false then { s with pending := s.pending ++ [c] }
  else { s with events := s.events ++ [if ok c then IceEvent.applied c else IceEvent.dropped c] }

/-- The flush loop of `handle_offer` over a pending list: each candidate
is attempted once, in order, failures skipped. -/
def applyPending {α : Type} (ok : α → Bool) (cs : List α) : List (IceEvent α) :=
  cs.map (fun c => if ok c then IceEvent.applied c else IceEvent.dropped c)

/-- Embedding of the ICE part of `WebRTCSession.handle_offer`: remote
description set first, then the pending candidates flushed in FIFO order,
then the pending list cleared. -/
def handleOffer {α : Type} (ok : α → Bool) (s : IceState α) : IceState α :=
  { remoteDescSet := true, pending := [],
    events := s.events ++ IceEvent.setRemote :: applyPending ok s.pending }

theorem foldl_handleIce_pending {α : Type} (ok : α → Bool) (cs : List α)
    (s : IceState α) (h : s.remoteDescSet = false) :
    cs.foldl (handleIce ok) s =
      { s with pending := s.pending ++ cs } := by
  induction cs generalizing s with
  | nil => simp
  | cons c cs2 ih =>
    rw [List.foldl_cons]
    have hstep : handleIce ok s c = { s with pending := s.pending ++ [c] } := by
      unfold handleIce
      rw [if_pos h]
    rw [hstep, ih { s with pending := s.pending ++ [c] } h]
    simp

/-- C3: candidates delivered before the offer all land in the pending
queue in arrival order; handling the offer emits the set-remote call
first, then attempts every buffered candidate exactly once in the
submitted order (a failed candidate is dropped without stopping the rest),
and clears the queue. -/
theorem ice_candidates_flushed_in_order {α : Type} (ok : α → Bool)
    (cs : List α) :
    (cs.foldl (handleIce ok) initIce).pending = cs
    ∧ (handleOffer ok (cs.foldl (handleIce ok) initIce)).events =
        IceEvent.setRemote :: applyPending ok cs
    ∧ (handleOffer ok (cs.foldl (handleIce ok) initIce)).pending = [] := by
  rw [foldl_handleIce_pending ok cs initIce rfl]
  unfold handleOffer initIce
  refine ⟨by simp, by simp, rfl⟩

/-! ## PTT capture buffer — `signaling/webrtc.py::_on_track` and
`signaling/ptt.py`
While `_ptt_active` holds (and the recording-duration cap has not fired),
each inbound frame's raw bytes are appended to `_audio_frames` and counted
into `_audio_buffer_size` only when the new total stays within
`MAX_AUDIO_BUFFER_BYTES`; otherwise the frame is ignored entirely.  Bytes
are embedded as `Nat` and frames as byte lists. -/

def MAX_AUDIO_BUFFER_BYTES : Nat := 18 * 1024 * 1024

structure PTTState where
  active : Bool
  frames : List (List Nat)
  size : Nat
deriving DecidableEq

/-- Embedding of the buffering branch of `WebRTCSession._on_track` for one
received frame (the non-timeout path: the duration cap only stops the
recording and never grows the buffer). -/
def onAudioFrame (s : PTTState) (raw : List Nat) : PTTState :=
  if s.active = true then
    if s.size + raw.length ≤ MAX_AUDIO_BUFFER_BYTES then
      { s with frames := s.frames ++ [raw], size := s.size + raw.length }
    else s
  else s

def runFrames (s : PTTState) (fs : List (List Nat)) : PTTState :=
  fs.foldl onAudioFrame s

theorem onAudioFrame_size_le (s : PTTState) (raw : List Nat)
    (h : s.size ≤ MAX_AUDIO_BUFFER_BYTES) :
    (onAudioFrame s raw).size ≤ MAX_AUDIO_BUFFER_BYTES := by
  unfold onAudioFrame
  by_cases hact : s.active = true
  · rw [if_pos hact]
    by_cases hfit : s.size + raw.length ≤ MAX_AUDIO_BUFFER_BYTES
    · rw [if_pos hfit]
      exact hfit
    · rw [if_neg hfit]
      exact h
  · rw [if_neg hact]
    exact h

theorem runFrames_size_le (fs : List (List Nat)) (s : PTTState)
    (hs : s.size ≤ MAX_AUDIO_BUFFER_BYTES) :
    (runFrames s fs).size ≤ MAX_AUDIO_BUFFER_BYTES := by
  induction fs generalizing s with
  | nil => exact hs
  | cons f fs2 ih => exact ih (onAudioFrame s f) (onAudioFrame_size_le s f hs)

/-- C6: over any sequence of inbound frames the byte counter stays within
`MAX_AUDIO_BUFFER_BYTES`, and a frame whose raw bytes would push the
total past the cap leaves the state — frame list and byte counter —
entirely unchanged. -/
theorem ptt_buffer_never_exceeds_cap (fs : List (List Nat)) (s : PTTState)
    (raw : List Nat) (hs : s.size ≤ MAX_AUDIO_BUFFER_BYTES)
    (hover : MAX_AUDIO_BUFFER_BYTES < s.size + raw.length) :
    (runFrames s fs).size ≤ MAX_AUDIO_BUFFER_BYTES
    ∧ onAudioFrame s raw = s := by
  constructor
  · exact runFrames_size_le fs s hs
  · unfold onAudioFrame
    by_cases hact : s.active = true
    · rw [if_pos hact, if_neg (by omega)]
    · rw [if_neg hact]

/-- Witness for C6: an empty active buffer, two small frames, and an
oversized frame that must be dropped. -/
theorem ptt_buffer_never_exceeds_cap_witness :
    (runFrames (PTTState.mk true [] 0) [[1, 2, 3], [4, 5]]).size ≤
        MAX_AUDIO_BUFFER_BYTES
    ∧ onAudioFrame (PTTState.mk true [] 0)
        (List.replicate (MAX_AUDIO_BUFFER_BYTES + 1) 0) =
        PTTState.mk true [] 0 :=
  ptt_buffer_never_exceeds_cap [[1, 2, 3], [4, 5]] (PTTState.mk true [] 0)
    (List.replicate (MAX_AUDIO_BUFFER_BYTES + 1) 0)
    (Nat.zero_le _)
    (by simp)

/-! ## Post-capture STT processing — `signaling/ptt.py::_process_stt`
The rendered WAV is rejected with `PTT_TOO_SHORT` when its PCM payload
(total length minus the 44-byte header) falls below
`int(sample_rate * channels * 2 * 0.15)` — embedded exactly as
`(rate * channels * 2 * 3) / 20`, the floor of that product — without
calling the transcription collaborator.  Otherwise `transcribe` is
awaited inside a `try`: a raised exception is caught and answered with
`PTT_TOO_SHORT`; success emits `USER_STT` with the text.  The collaborator
is abstracted as an `Option String` outcome (`none` = it raised). -/

inductive CtrlMsg where
  | PTT_TOO_SHORT
  | PTT_TIMEOUT
  | USER_STT (text : String)
  | AI_ERROR (message : String)
deriving DecidableEq

/-- Does a control message carry the `AI_ERROR` type tag? -/
def isAIError : CtrlMsg → Bool
  | CtrlMsg.AI_ERROR _ => true
  | _ => false

/-- Minimum PCM byte count: `int(self._audio_sample_rate *
self._audio_channels * 2 * 0.15)`. -/
def minRecordingBytes (sampleRate channels : Nat) : Nat :=
  sampleRate * channels * 2 * 3 / 20

/-- Embedding of `PTTMixin._process_stt`: the returned pair is the list of
control-channel messages sent and whether the transcription collaborator
was invoked at all. -/
def processSTT (sampleRate channels wavLen : Nat) (stt : Option String) :
    List CtrlMsg × Bool :=
  if (wavLen : Int) - 44 < (minRecordingBytes sampleRate channels : Int) then
    ([CtrlMsg.PTT_TOO_SHORT], false)
  else
    match stt with
    | none => ([CtrlMsg.PTT_TOO_SHORT], true)
    | some text => ([CtrlMsg.USER_STT text], true)

/-- C10: a WAV whose PCM payload is below the 0.15-second minimum is
answered with `PTT_TOO_SHORT` and the transcription collaborator is never
invoked, whatever it would have returned. -/
theorem short_capture_skips_transcription (sampleRate channels wavLen : Nat)
    (stt : Option String)
    (h : (wavLen : Int) - 44 <
        (minRecordingBytes sampleRate channels : Int)) :
    processSTT sampleRate channels wavLen stt =
      ([CtrlMsg.PTT_TOO_SHORT], false) := by
  unfold processSTT
  rw [if_pos h]

/-- Witness for C10 at 48kHz mono: the minimum is 14400 PCM bytes and a
100-byte WAV is far below it. -/
theorem short_capture_skips_transcription_witness :
    processSTT 48000 1 100 (some ("hello")) =
      ([CtrlMsg.PTT_TOO_SHORT], false) :=
  short_capture_skips_transcription 48000 1 100 (some ("hello")) (by decide)

/-- Counterexample to C2 as stated: on a long-enough capture whose
transcription raises, the session answers with `PTT_TOO_SHORT` — no
`AI_ERROR` message is sent (`AI_ERROR` is reserved for the no-response
timeout path in `interview_handler.py`). -/
theorem stt_failure_sends_no_ai_error :
    processSTT 48000 1 14444 none = ([CtrlMsg.PTT_TOO_SHORT], true)
    ∧ (processSTT 48000 1 14444 none).1.all
        (fun m => !(isAIError m)) = true := by
  constructor
  · decide
  · decide

/-- C2 (amended): a transcription failure on a long-enough capture is
caught at the call boundary — the embedding is total, the shallow form of
"the exception does not propagate" — and a `PTT_TOO_SHORT` control message
is sent to the peer. -/
theorem stt_failure_caught_and_reported (sampleRate channels wavLen : Nat)
    (h : (minRecordingBytes sampleRate channels : Int) ≤
        (wavLen : Int) - 44) :
    processSTT sampleRate channels wavLen none =
      ([CtrlMsg.PTT_TOO_SHORT], true) := by
  unfold processSTT
  rw [if_neg (by omega)]

/-- Witness for the amended C2: 14400 PCM bytes at 48kHz mono meet the
minimum exactly, and the failing transcription is reported. -/
theorem stt_failure_caught_and_reported_witness :
    processSTT 48000 1 14444 none = ([CtrlMsg.PTT_TOO_SHORT], true) :=
  stt_failure_caught_and_reported 48000 1 14444 (by decide)

/-! ## Playback track — `speech/audio_track.py::TTSAudioTrack`
`play` drains any stale queue, slices the PCM into `frame_bytes`-sized
chunks with the final partial chunk zero-padded, enqueues them followed by
a `None` sentinel, and suspends on a one-shot event that `_dequeue_frame`
sets only when it pops the sentinel.  Bytes are embedded as `Nat`. -/

def SAMPLES_PER_FRAME : Nat := 960

def frameBytes : Nat := SAMPLES_PER_FRAME * 2

def SILENCE : List Nat := List.replicate frameBytes 0

/-- The slicing loop of `TTSAudioTrack.play`: `frame_bytes`-sized chunks
in order, the last partial one zero-padded to full size. -/
def chunkPCM (pcm : List Nat) : List (List Nat) :=
  if h0 : pcm = [] then []
  else if h1 : pcm.length ≤ frameBytes then
    [pcm ++ List.replicate (frameBytes - pcm.length) 0]
  else pcm.take frameBytes :: chunkPCM (pcm.drop frameBytes)
termination_by pcm.length
decreasing_by
  simp only [List.length_drop]
  have hfb : frameBytes = 1920 := rfl
  omega

/-- The queue contents produced by one `play(pcm_bytes)` call: the chunks
then the end sentinel. -/
def playQueue (pcm : List Nat) : List (Option (List Nat)) :=
  (chunkPCM pcm).map some ++ [none]

/-- Consumer-side state: the queue and the completion event that `play`
awaits. -/
structure TrackState where
  queue : List (Option (List Nat))
  done : Bool
deriving DecidableEq

/-- Embedding of `TTSAudioTrack._dequeue_frame`: silence on an empty
queue, the chunk on data, and on the sentinel silence plus the completion
event. -/
def dequeueFrame (s : TrackState) : List Nat × TrackState :=
  match s.queue with
  | [] => (SILENCE, s)
  | some d :: rest => (d, { s with queue := rest })
  | none :: rest => (SILENCE, { queue := rest, done := true })

/-- C4: a 3000-byte PCM buffer with a 1920-byte frame yields exactly two
queued frames — the original first 1920 bytes, then the remaining 1080
bytes zero-padded to 1920 — followed by the sentinel; the completion event
that `play` awaits is still unset after the two frames are dequeued and is
set exactly when the consumer reaches the sentinel. -/
theorem play_3000_bytes_emits_two_frames (pcm : List Nat)
    (h : pcm.length = 3000) :
    playQueue pcm =
      [some (pcm.take 1920), some (pcm.drop 1920 ++ List.replicate 840 0), none]
    ∧ (dequeueFrame (TrackState.mk (playQueue pcm) false)).1 = pcm.take 1920
    ∧ (dequeueFrame (TrackState.mk (playQueue pcm) false)).2.done = false
    ∧ (dequeueFrame
        (dequeueFrame (TrackState.mk (playQueue pcm) false)).2).1 =
        pcm.drop 1920 ++ List.replicate 840 0
    ∧ (dequeueFrame
        (dequeueFrame (TrackState.mk (playQueue pcm) false)).2).2.done = false
    ∧ (dequeueFrame (dequeueFrame
        (dequeueFrame (TrackState.mk (playQueue pcm) false)).2).2).1 = SILENCE
    ∧ (dequeueFrame (dequeueFrame
        (dequeueFrame (TrackState.mk (playQueue pcm) false)).2).2).2.done =
        true := by
  have hfb : frameBytes = 1920 := rfl
  have hne : pcm ≠ [] := by
    intro he
    rw [he] at h
    simp at h
  have hgt : ¬ pcm.length ≤ frameBytes := by omega
  have hdlen : (pcm.drop frameBytes).length = 1080 := by
    simp [List.length_drop, h, hfb]
  have hdne : pcm.drop frameBytes ≠ [] := by
    intro he
    rw [he] at hdlen
    simp at hdlen
  have hdle : (pcm.drop frameBytes).length ≤ frameBytes := by omega
  have hchunk : chunkPCM pcm =
      [pcm.take 1920, pcm.drop 1920 ++ List.replicate 840 0] := by
    rw [chunkPCM.eq_def, dif_neg hne, dif_neg hgt,
      chunkPCM.eq_def, dif_neg hdne, dif_pos hdle, hdlen, hfb]
  have hpq : playQueue pcm =
      [some (pcm.take 1920), some (pcm.drop 1920 ++ List.replicate 840 0),
       none] := by
    unfold playQueue
    rw [hchunk]
    rfl
  refine ⟨hpq, ?_, ?_, ?_, ?_, ?_, ?_⟩ <;> rw [hpq] <;> rfl

/-- Witness for C4 on a concrete 3000-byte buffer. -/
theorem play_3000_bytes_emits_two_frames_witness :
    playQueue (List.replicate 3000 7) =
      [some ((List.replicate 3000 7).take 1920),
       some ((List.replicate 3000 7).drop 1920 ++ List.replicate 840 0), none]
    ∧ (dequeueFrame (TrackState.mk (playQueue (List.replicate 3000 7)) false)).1 =
        (List.replicate 3000 7).take 1920
    ∧ (dequeueFrame
        (TrackState.mk (playQueue (List.replicate 3000 7)) false)).2.done = false
    ∧ (dequeueFrame (dequeueFrame
        (TrackState.mk (playQueue (List.replicate 3000 7)) false)).2).1 =
        (List.replicate 3000 7).drop 1920 ++ List.replicate 840 0
    ∧ (dequeueFrame (dequeueFrame
        (TrackState.mk (playQueue (List.replicate 3000 7)) false)).2).2.done =
        false
    ∧ (dequeueFrame (dequeueFrame (dequeueFrame
        (TrackState.mk (playQueue (List.replicate 3000 7)) false)).2).2).1 =
        SILENCE
    ∧ (dequeueFrame (dequeueFrame (dequeueFrame
        (TrackState.mk (playQueue (List.replicate 3000 7)) false)).2).2).2.done =
        true :=
  play_3000_bytes_emits_two_frames (List.replicate 3000 7)
    (List.length_replicate 3000 7)

/-! ## Multipart upload client — `storage/s3.py::S3MultipartUpload`
`write` appends to the internal buffer then flushes 5MB parts while the
buffer holds at least `MIN_PART_SIZE` bytes; `complete` flushes the
remaining partial buffer as the final part, and with zero parts aborts and
raises instead (`none` here).  Part bodies are recorded in upload order. -/

def MIN_PART_SIZE : Nat := 5 * 1024 * 1024

structure UploadState where
  parts : List (List Nat)
  buf : List Nat
deriving DecidableEq

/-- The `while len(self._buf) >= self.MIN_PART_SIZE` flush loop. -/
def uploadLoop (st : UploadState) : UploadState :=
  if _h : MIN_PART_SIZE ≤ st.buf.length then
    uploadLoop
      ⟨st.parts ++ [st.buf.take MIN_PART_SIZE], st.buf.drop MIN_PART_SIZE⟩
  else st
termination_by st.buf.length
decreasing_by
  simp only [List.length_drop]
  have hM : MIN_PART_SIZE = 5242880 := rfl
  omega

/-- Embedding of `S3MultipartUpload.write`. -/
def s3write (st : UploadState) (data : List Nat) : UploadState :=
  uploadLoop ⟨st.parts, st.buf ++ data⟩

/-- Embedding of `S3MultipartUpload.complete`: the final ordered part
list, or `none` for the abort-and-raise branch on zero parts. -/
def s3complete (st : UploadState) : Option (List (List Nat)) :=
  let parts2 := if st.buf = [] then st.parts else st.parts ++ [st.buf]
  if parts2 = [] then none else some parts2

theorem uploadLoop_of_lt (st : UploadState)
    (h : st.buf.length < MIN_PART_SIZE) : uploadLoop st = st := by
  rw [uploadLoop.eq_def, dif_neg (by omega)]

/-- C5: writing 4MB then 2MB flushes exactly one 5MB part — the first 5MB
of the written stream — and leaves the remaining 1MB buffered; `complete`
then uploads that 1MB as the final part, and the parts concatenate back to
the full 6MB stream in order. -/
theorem multipart_two_writes_then_complete (a b : List Nat)
    (ha : a.length = 4 * 1024 * 1024) (hb : b.length = 2 * 1024 * 1024) :
    (s3write (s3write (UploadState.mk [] []) a) b).parts =
      [(a ++ b).take MIN_PART_SIZE]
    ∧ ((a ++ b).take MIN_PART_SIZE).length = MIN_PART_SIZE
    ∧ (s3write (s3write (UploadState.mk [] []) a) b).buf =
        (a ++ b).drop MIN_PART_SIZE
    ∧ ((a ++ b).drop MIN_PART_SIZE).length = 1024 * 1024
    ∧ s3complete (s3write (s3write (UploadState.mk [] []) a) b) =
        some [(a ++ b).take MIN_PART_SIZE, (a ++ b).drop MIN_PART_SIZE]
    ∧ (a ++ b).take MIN_PART_SIZE ++ (a ++ b).drop MIN_PART_SIZE = a ++ b := by
  have hM : MIN_PART_SIZE = 5242880 := rfl
  have hab : (a ++ b).length = 6291456 := by
    simp [List.length_append, ha, hb]
  have hstep1 : s3write (UploadState.mk [] []) a = UploadState.mk [] a := by
    unfold s3write
    rw [List.nil_append]
    exact uploadLoop_of_lt (UploadState.mk [] a)
      (by show a.length < MIN_PART_SIZE; omega)
  have hdroplen : ((a ++ b).drop MIN_PART_SIZE).length = 1024 * 1024 := by
    simp only [List.length_drop, hab, hM]
  have hstep2 : s3write (UploadState.mk [] a) b =
      UploadState.mk [(a ++ b).take MIN_PART_SIZE]
        ((a ++ b).drop MIN_PART_SIZE) := by
    unfold s3write
    rw [uploadLoop.eq_def, dif_pos (by omega : MIN_PART_SIZE ≤ (a ++ b).length)]
    simp only [List.nil_append]
    exact uploadLoop_of_lt _
      (by show ((a ++ b).drop MIN_PART_SIZE).length < MIN_PART_SIZE; omega)
  rw [hstep1, hstep2]
  have hdne : (a ++ b).drop MIN_PART_SIZE ≠ [] := by
    intro he
    rw [he] at hdroplen
    simp at hdroplen
  refine ⟨rfl, ?_, rfl, hdroplen, ?_, List.take_append_drop _ _⟩
  · simp only [List.length_take, hab, hM]
    omega
  · unfold s3complete
    simp only [if_neg hdne]
    rw [if_neg (by simp :
      ¬([(a ++ b).take MIN_PART_SIZE] ++ [(a ++ b).drop MIN_PART_SIZE] = []))]
    rfl

/-- Witness for C5 on concrete 4MB and 2MB buffers. -/
theorem multipart_two_writes_then_complete_witness :
    (s3write (s3write (UploadState.mk [] []) (List.replicate 4194304 1))
        (List.replicate 2097152 2)).parts =
      [((List.replicate 4194304 1 ++ List.replicate 2097152 2).take
          MIN_PART_SIZE)]
    ∧ (((List.replicate 4194304 1 ++ List.replicate 2097152 2).take
          MIN_PART_SIZE)).length = MIN_PART_SIZE
    ∧ (s3write (s3write (UploadState.mk [] []) (List.replicate 4194304 1))
        (List.replicate 2097152 2)).buf =
        ((List.replicate 4194304 1 ++ List.replicate 2097152 2).drop
          MIN_PART_SIZE)
    ∧ (((List.replicate 4194304 1 ++ List.replicate 2097152 2).drop
          MIN_PART_SIZE)).length = 1024 * 1024
    ∧ s3complete (s3write (s3write (UploadState.mk [] [])
          (List.replicate 4194304 1)) (List.replicate 2097152 2)) =
        some [((List.replicate 4194304 1 ++ List.replicate 2097152 2).take
            MIN_PART_SIZE),
          ((List.replicate 4194304 1 ++ List.replicate 2097152 2).drop
            MIN_PART_SIZE)]
    ∧ ((List.replicate 4194304 1 ++ List.replicate 2097152 2).take
          MIN_PART_SIZE) ++
        ((List.replicate 4194304 1 ++ List.replicate 2097152 2).drop
          MIN_PART_SIZE) =
        List.replicate 4194304 1 ++ List.replicate 2097152 2 :=
  multipart_two_writes_then_complete (List.replicate 4194304 1)
    (List.replicate 2097152 2)
    ((List.length_replicate 4194304 1).trans (by norm_num))
    ((List.length_replicate 2097152 2).trans (by norm_num))

/-! ## Streaming recorder finalization — `speech/recorder.py::stop`
`stop` returns `None` immediately when `_running` is already false; on the
first call it clears `_running`, then flushes both encoder tails, closes
the container, performs a final S3 flush and completes the multipart
upload, returning its URL — or aborts the upload if that sequence raised
(abstracted by `finalizeOk`).  The `ops` field logs the performed
effects. -/

inductive RecOp where
  | flushEncoders
  | closeContainer
  | flushS3
  | completeUpload
  | abortUpload
deriving DecidableEq

structure RecState where
  running : Bool
deriving DecidableEq

structure StopResult where
  state : RecState
  url : Option String
  ops : List RecOp
deriving DecidableEq

/-- Embedding of `InterviewRecorder.stop`. -/
def recStop (s : RecState) (finalizeOk : Bool) (url : String) : StopResult :=
  if s.running = false then StopResult.mk s none []
  else if finalizeOk then
    StopResult.mk (RecState.mk false) (some url)
      [RecOp.flushEncoders, RecOp.closeContainer, RecOp.flushS3,
       RecOp.completeUpload]
  else
    StopResult.mk (RecState.mk false) none
      [RecOp.flushEncoders, RecOp.closeContainer, RecOp.flushS3,
       RecOp.abortUpload]

/-- C7: on a running recorder the first `stop` performs the
encoder-flush / container-close / final-flush / multipart-complete
sequence exactly once and returns the upload address; the second call —
whatever its finalize outcome would be — changes nothing, performs no
operation and returns no new address. -/
theorem recorder_stop_finalizes_once (s : RecState) (ok2 : Bool)
    (u1 u2 : String) (h : s.running = true) :
    (recStop s true u1).url = some u1
    ∧ (recStop s true u1).ops =
        [RecOp.flushEncoders, RecOp.closeContainer, RecOp.flushS3,
         RecOp.completeUpload]
    ∧ (recStop s true u1).ops.count RecOp.completeUpload = 1
    ∧ recStop (recStop s true u1).state ok2 u2 =
        StopResult.mk (recStop s true u1).state none [] := by
  have hfirst : recStop s true u1 =
      StopResult.mk (RecState.mk false) (some u1)
        [RecOp.flushEncoders, RecOp.closeContainer, RecOp.flushS3,
         RecOp.completeUpload] := by
    unfold recStop
    rw [if_neg (by simp [h]), if_pos rfl]
  rw [hfirst]
  refine ⟨rfl, rfl, rfl, ?_⟩
  unfold recStop
  rw [if_pos rfl]

/-- Witness for C7 on a concrete running recorder. -/
theorem recorder_stop_finalizes_once_witness :
    (recStop (RecState.mk true) true ("u1")).url = some ("u1")
    ∧ (recStop (RecState.mk true) true ("u1")).ops =
        [RecOp.flushEncoders, RecOp.closeContainer, RecOp.flushS3,
         RecOp.completeUpload]
    ∧ (recStop (RecState.mk true) true ("u1")).ops.count
        RecOp.completeUpload = 1
    ∧ recStop (recStop (RecState.mk true) true ("u1")).state false ("u2") =
        StopResult.mk (recStop (RecState.mk true) true ("u1")).state none [] :=
  recorder_stop_finalizes_once (RecState.mk true) false ("u1") ("u2") rfl

end SessionEngine
